import Mathlib

set_option linter.unusedVariables false

/- Shallow embedding of src/main.rs from the totk-dump repository.
   Bytes are lists of naturals, paths are lists of path components, and the
   external codec crates (zstd, roead sarc, roead byml, roead aamp, msyt,
   serde_yaml) are oracle parameters bundled in a `Codecs` structure:
   the program only inspects their success or failure, never their internals. -/

abbrev Bytes := List Nat

/- The four decompression contexts of `struct Unpacker` (main.rs lines 29-36),
   each reduced to its one piece of observable state: the optionally bound
   zstd dictionary. -/
structure Unpacker where
  defaultD : Option Bytes
  commonD : Option Bytes
  packD : Option Bytes
  mapD : Option Bytes
deriving DecidableEq

/- Which of the four decompression contexts `Unpacker::decompress`
   (lines 72-81) locks, as a function of the filename. -/
inductive Category where
  | dflt
  | common
  | pack
  | map
deriving DecidableEq

/- Error values propagated with the `?` operator (eyre::Result). -/
inductive Err where
  | exhausted : Option Nat → Err
  | codec : Nat → Err
  | fsRead : Nat → Err
  | missingDict : String → Err
  | noFilename : Err
deriving DecidableEq

/- Outcome of a fallible operation: ordinary success, a propagated error,
   or a Rust panic (out-of-bounds slice or index, `.unwrap()` on None). -/
inductive Res (α : Type) where
  | ok : α → Res α
  | err : Err → Res α
  | panicked : Res α
deriving DecidableEq

inductive OutData where
  | text : String → OutData
  | bin : Bytes → OutData
deriving DecidableEq

/- The warnings printed with `println!("WARNING: ...")`. -/
inductive Warn where
  | parseFail : List String → Nat → Warn
  | yamlFail : List String → Warn
  | msbtParse : String → Warn
  | msbtYaml : Warn
deriving DecidableEq

/- Observable effects of a run: files written under the output root
   (relative path and contents) and warnings printed, in order. -/
structure Run where
  outs : List (List String × OutData)
  warns : List Warn
deriving DecidableEq

def addOut (r : Run) (p : List String) (d : OutData) : Run :=
  { r with outs := r.outs ++ [(p, d)] }

def addWarn (r : Run) (w : Warn) : Run :=
  { r with warns := r.warns ++ [w] }

/- One member of an opened SARC archive (roead::sarc::File):
   an optional name and its data. -/
structure SFile where
  name : Option String
  data : Bytes
deriving DecidableEq

/- The black-box codec crates. `zstdTry dict data cap` models
   `Decompressor::decompress(data, cap)` on a context whose dictionary
   state is `dict`; the others model Sarc::new, Byml::from_binary,
   serde_yaml::to_string, File::is_aamp, ParameterIO::from_binary and
   Msyt::from_msbt_bytes. Decoded trees are abstract (Nat handles). -/
structure Codecs where
  zstdTry : Option Bytes → Bytes → Nat → Except Nat Bytes
  sarcOpen : Bytes → Except Nat (List SFile)
  bymlDec : Bytes → Except Nat Nat
  yamlOfByml : Nat → Except Nat String
  aampSig : Bytes → Bool
  aampDec : Bytes → Except Nat Nat
  yamlOfAamp : Nat → Except Nat String
  msytDec : Bytes → Except Nat Nat
  yamlOfMsyt : Nat → Except Nat String

/- Rust str::ends_with. -/
def endsWithS (s p : String) : Bool := p.data.isSuffixOf s.data

/- Split a file name at its last dot: `some (stem, ext)` when there is an
   extension in the sense of Rust Path::file_stem / Path::extension
   (a dot with a nonempty part before it), `none` otherwise. -/
def splitLastDot : List Char → Option (List Char × List Char)
  | [] => none
  | c :: rest =>
    match splitLastDot rest with
    | some (b, a) => some (c :: b, a)
    | none => if c = '.' then some ([], rest) else none

/- Rust Path::file_stem on one path component. -/
def stemOf (s : String) : String :=
  match splitLastDot s.data with
  | some (b, _) => if b.isEmpty then s else ⟨b⟩
  | none => s

/- Rust Path::with_extension on one path component; an empty new extension
   (`set_extension("")`) just drops the old one. -/
def withExt (s e : String) : String :=
  if e = "" then stemOf s else stemOf s ++ "." ++ e

/- Rust Path::with_extension: replaces the extension of the final
   component of the path. -/
def pathWithExt (p : List String) (e : String) : List String :=
  match p with
  | [] => []
  | [x] => [withExt x e]
  | x :: rest => x :: pathWithExt rest e

def COMPRESSION_LEVEL : Nat := 15

/- The buffer-size multipliers tried by `Unpacker::decompress`
   (line 83: `for i in 2..(COMPRESSION_LEVEL * 2)`). -/
def mulRange : List Nat := List.range' 2 (COMPRESSION_LEVEL * 2 - 2)

/- Dictionary selection of `Unpacker::decompress` lines 73-81: the chain of
   `ends_with` tests picking which context to lock. -/
def categoryFor (name : String) : Category :=
  if endsWithS name ".bcett.byml.zs" then .map
  else if endsWithS name ".pack.zs" then .pack
  else if endsWithS name ".rsizetable.zs" then .dflt
  else .common

def dictOf (st : Unpacker) : Category → Option Bytes
  | .dflt => st.defaultD
  | .common => st.commonD
  | .pack => st.packD
  | .map => st.mapD

/- The retry loop of `Unpacker::decompress` lines 82-92: try each multiplier
   in order, return the first success, remember the last error, and bail
   with it after the loop. -/
def decompressFrom (f : Nat → Except Nat Bytes) : List Nat → Option Nat → Except Err Bytes
  | [], last => .error (.exhausted last)
  | i :: rest, last =>
    match f i with
    | .ok d => .ok d
    | .error e => decompressFrom f rest (some e)

/- `Unpacker::decompress` lines 72-93. -/
def decompress (c : Codecs) (st : Unpacker) (name : String) (data : Bytes) : Except Err Bytes :=
  decompressFrom (fun i => c.zstdTry (dictOf st (categoryFor name)) data (data.length * i))
    mulRange none

/- Lines 100-104 of `Unpacker::write_byml`: slice `&data[..2]`, then patch
   the version byte in place (`data[3] = 4` after magic "BY" = [66, 89],
   `data[2] = 2` after magic "YB" = [89, 66]); `ok none` is the
   `_ => return Ok(())` arm, `panicked` an out-of-bounds slice or index. -/
def fixHeader (data : Bytes) : Res (Option Bytes) :=
  match data with
  | b0 :: b1 :: _ =>
    if b0 = 66 ∧ b1 = 89 then
      if 3 < data.length then .ok (some (data.set 3 4)) else .panicked
    else if b0 = 89 ∧ b1 = 66 then
      if 2 < data.length then .ok (some (data.set 2 2)) else .panicked
    else .ok none
  | _ => .panicked

/- `Unpacker::write_byml` lines 95-133. Output paths are relative to the
   output root; `fs::create_dir_all` and `fs::write` are modeled as
   always succeeding, recorded in the `Run`. -/
def write_byml (c : Codecs) (st : Unpacker) (data0 : Bytes) (relative : List String) (r : Run) :
    Run × Res Unit :=
  match relative.getLast? with
  | none => (r, .panicked)
  | some name =>
    match (if endsWithS name ".zs" then decompress c st name data0 else .ok data0) with
    | .error e => (r, .err e)
    | .ok data =>
      match fixHeader data with
      | .panicked => (r, .panicked)
      | .err e => (r, .err e)
      | .ok none => (r, .ok ())
      | .ok (some data1) =>
        match c.bymlDec data1 with
        | .ok byml =>
          match c.yamlOfByml byml with
          | .ok text => (addOut r (pathWithExt relative "yml") (.text text), .ok ())
          | .error _ => (addWarn r (.yamlFail relative), .ok ())
        | .error e =>
          let out := if endsWithS name ".zs" then pathWithExt relative "" else relative
          (addOut (addWarn r (.parseFail relative e)) out (.bin data1), .ok ())

/- b"MsgStdBn". -/
def msgStdBn : Bytes := [77, 115, 103, 83, 116, 100, 66, 110]

/- The body of the per-member loop in `Unpacker::unpack` lines 158-191.
   `panicked` on a nameless member is `file.unwrap_name()`. -/
def processMember (c : Codecs) (st : Unpacker) (relative : List String) (f : SFile) (r : Run) :
    Run × Res Unit :=
  match f.name with
  | none => (r, .panicked)
  | some name =>
    if endsWithS name ".byml.zs" || endsWithS name ".bgyml" then
      write_byml c st f.data (relative ++ [name]) r
    else if c.aampSig f.data then
      match c.aampDec f.data with
      | .error e => (r, .err (.codec e))
      | .ok pio =>
        match c.yamlOfAamp pio with
        | .error e => (r, .err (.codec e))
        | .ok text => (addOut r (pathWithExt (relative ++ [name]) "yml") (.text text), .ok ())
    else if msgStdBn.isPrefixOf f.data then
      match c.msytDec f.data with
      | .ok m =>
        match c.yamlOfMsyt m with
        | .ok text => (addOut r (pathWithExt (relative ++ [name]) "yml") (.text text), .ok ())
        | .error _ => (addWarn r .msbtYaml, .ok ())
      | .error _ => (addWarn r (.msbtParse name), .ok ())
    else
      (addOut r (relative ++ [name]) (.bin f.data), .ok ())

/- The `for file in sarc.files().filter(...)` loop of lines 157-191:
   members are handled in order and any `?` propagates out of the entry. -/
def processMembers (c : Codecs) (st : Unpacker) (relative : List String) :
    List SFile → Run → Run × Res Unit
  | [], r => (r, .ok ())
  | f :: fs, r =>
    match processMember c st relative f r with
    | (r1, .ok ()) => processMembers c st relative fs r1
    | (r1, bad) => (r1, bad)

/- One discovered file of the walk: its path relative to the source root and
   the outcome `fs::read` would have on it. -/
structure Entry where
  path : List String
  read : Except Nat Bytes

/- The body of the `try_for_each` closure in `Unpacker::unpack`
   lines 144-193, for one discovered file. -/
def processEntry (c : Codecs) (st : Unpacker) (e : Entry) (r : Run) : Run × Res Unit :=
  match e.path.getLast? with
  | none => (r, .err .noFilename)
  | some name =>
    if endsWithS name ".byml.zs" || endsWithS name ".bgyml" then
      match e.read with
      | .error k => (r, .err (.fsRead k))
      | .ok data => write_byml c st data e.path r
    else if endsWithS name ".pack.zs" || endsWithS name ".sarc.zs" then
      match e.read with
      | .error k => (r, .err (.fsRead k))
      | .ok raw =>
        match decompress c st name raw with
        | .error er => (r, .err er)
        | .ok data =>
          match c.sarcOpen data with
          | .error k => (r, .err (.codec k))
          | .ok files => processMembers c st e.path (files.filter (fun g => g.name.isSome)) r
    else
      (r, .ok ())

/- `try_for_each` over the discovered files (lines 141-194): entries are
   consumed in order and the first propagated error or panic ends the run. -/
def unpackFrom (c : Codecs) (st : Unpacker) : List Entry → Run → Run × Res Unit
  | [], r => (r, .ok ())
  | e :: es, r =>
    match processEntry c st e r with
    | (r1, .ok ()) => unpackFrom c st es r1
    | (r1, bad) => (r1, bad)

/- `Unpacker::unpack` lines 135-197 over a given walk result. -/
def unpack (c : Codecs) (st : Unpacker) (es : List Entry) : Run × Res Unit :=
  unpackFrom c st es ⟨[], []⟩

/- An abstract source tree for `init_dicts`: relative paths with contents. -/
abbrev FS := List (List String × Bytes)

def fsRead (fs : FS) (p : List String) : Except Nat Bytes :=
  match fs.find? (fun q => q.1 == p) with
  | some q => .ok q.2
  | none => .error 0

/- roead Sarc::get_data: random access to a member by name. -/
def sarcGet (files : List SFile) (n : String) : Option Bytes :=
  (files.find? (fun f => f.name == some n)).map (fun f => f.data)

def zsDicPath : List String := ["Pack", "ZsDic.pack.zs"]

/- `Unpacker::init_dicts` lines 50-70: read the bootstrap archive, inflate it
   with the dictionary-free context using a single size guess of 15x, open it
   as a SARC, and bind the three named dictionary blobs to the common, pack
   and map contexts. Every failure propagates (is fatal). `set_dictionary`
   itself is modeled as always succeeding. -/
def init_dicts (c : Codecs) (fs : FS) (st : Unpacker) : Except Err Unpacker :=
  match fsRead fs zsDicPath with
  | .error k => .error (.fsRead k)
  | .ok data =>
    match c.zstdTry st.defaultD data (data.length * 15) with
    | .error k => .error (.codec k)
    | .ok dec =>
      match c.sarcOpen dec with
      | .error k => .error (.codec k)
      | .ok files =>
        match sarcGet files "zs.zsdic" with
        | none => .error (.missingDict "zs.zsdic")
        | some zs =>
          match sarcGet files "pack.zsdic" with
          | none => .error (.missingDict "pack.zsdic")
          | some pk =>
            match sarcGet files "bcett.byml.zsdic" with
            | none => .error (.missingDict "bcett.byml.zsdic")
            | some mp =>
              .ok { st with commonD := some zs, packD := some pk, mapD := some mp }

/- `main` line 231 restricted to the covered core:
   `Unpacker::new(..).init_dicts()?.unpack()?`. -/
def runAll (c : Codecs) (fs : FS) (es : List Entry) : Run × Res Unit :=
  match init_dicts c fs ⟨none, none, none, none⟩ with
  | .error e => (⟨[], []⟩, .err e)
  | .ok st => unpack c st es

/- ### A concrete instantiation of the oracles, used for witnesses and
   counterexamples. -/

def aComp : Bytes := [1]

def aRaw : Bytes := [66, 89, 0, 4, 7]

def bComp : Bytes := [2]

def bRaw : Bytes := [3]

def innerComp : Bytes := [4]

def innerRaw : Bytes := [66, 89, 0, 4, 8]

def rawBin : Bytes := [9, 9, 9]

/- A decompressor that inflates the three known payloads on any attempt whose
   capacity guess is at least twice the input length (so the first multiplier
   of the retry loop already succeeds) and fails on everything else. -/
def demoZstd (d : Option Bytes) (data : Bytes) (cap : Nat) : Except Nat Bytes :=
  if data = aComp ∧ 2 ≤ cap then .ok aRaw
  else if data = bComp ∧ 2 ≤ cap then .ok bRaw
  else if data = innerComp ∧ 2 ≤ cap then .ok innerRaw
  else .error 5

def demoSarc (data : Bytes) : Except Nat (List SFile) :=
  if data = bRaw then
    .ok [⟨some "inner.byml.zs", innerComp⟩, ⟨some "raw.bin", rawBin⟩]
  else .error 6

def demoByml (data : Bytes) : Except Nat Nat :=
  if data = aRaw then .ok 1
  else if data = innerRaw then .ok 2
  else .error 7

def cDemo : Codecs where
  zstdTry := demoZstd
  sarcOpen := demoSarc
  bymlDec := demoByml
  yamlOfByml := fun _ => .ok "demo"
  aampSig := fun _ => false
  aampDec := fun _ => .error 0
  yamlOfAamp := fun _ => .error 0
  msytDec := fun _ => .error 0
  yamlOfMsyt := fun _ => .error 0

/- A post-initialization unpacker state with all three dictionaries bound. -/
def stDemo : Unpacker := ⟨none, some [10], some [11], some [12]⟩

def eA : Entry := ⟨["a.byml.zs"], .ok aComp⟩

def eB : Entry := ⟨["b.pack.zs"], .ok bComp⟩

/- A discovered file whose `fs::read` fails. -/
def eBad : Entry := ⟨["c.byml.zs"], .error 3⟩

/- ### Specification-side measures for the retry loop. -/

/- The value of the first multiplier in the list for which the codec
   call succeeds, if any. -/
def firstOk (f : Nat → Except Nat Bytes) : List Nat → Option Bytes
  | [] => none
  | i :: rest =>
    match f i with
    | .ok d => some d
    | .error _ => firstOk f rest

/- The last codec error seen while scanning the multipliers. -/
def lastErr (f : Nat → Except Nat Bytes) : List Nat → Option Nat → Option Nat
  | [], acc => acc
  | i :: rest, acc =>
    match f i with
    | .ok _ => acc
    | .error e => lastErr f rest (some e)

/- How many codec calls the retry loop makes on the given multipliers. -/
def attemptsFrom (f : Nat → Except Nat Bytes) : List Nat → Nat
  | [] => 0
  | i :: rest =>
    match f i with
    | .ok _ => 1
    | .error _ => 1 + attemptsFrom f rest

/- ### Supporting lemmas -/

theorem decompressFrom_eq (f : Nat → Except Nat Bytes) (is : List Nat) (acc : Option Nat) :
    decompressFrom f is acc =
      match firstOk f is with
      | some d => Except.ok d
      | none => Except.error (Err.exhausted (lastErr f is acc)) := by
  induction is generalizing acc with
  | nil => rfl
  | cons i rest ih =>
    cases h : f i with
    | ok d => simp [decompressFrom, firstOk, h]
    | error e =>
      simp only [decompressFrom, firstOk, lastErr, h]
      exact ih (some e)

theorem attemptsFrom_le (f : Nat → Except Nat Bytes) (is : List Nat) :
    attemptsFrom f is ≤ is.length := by
  induction is with
  | nil => simp [attemptsFrom]
  | cons i rest ih =>
    cases h : f i with
    | ok d => simp [attemptsFrom, h]
    | error e =>
      simp only [attemptsFrom, h, List.length_cons]
      omega

/-- C2: for every category and compressed input, the retry loop tries the
multipliers 2,3,...,29 in order, returns the result of the first multiplier
whose decompression call succeeds, fails with the last underlying codec error
when every multiplier fails, and never makes more than 28 attempts. -/
theorem decompress_retry_spec (c : Codecs) (st : Unpacker) (name : String) (data : Bytes) :
    decompress c st name data =
      (match firstOk (fun i => c.zstdTry (dictOf st (categoryFor name)) data (data.length * i))
          mulRange with
       | some d => Except.ok d
       | none => Except.error (Err.exhausted
           (lastErr (fun i => c.zstdTry (dictOf st (categoryFor name)) data (data.length * i))
             mulRange none)))
    ∧ attemptsFrom (fun i => c.zstdTry (dictOf st (categoryFor name)) data (data.length * i))
        mulRange ≤ 28 :=
  ⟨decompressFrom_eq _ _ _,
   le_trans (attemptsFrom_le _ _) (by decide)⟩

/-- C5 counterexample: the filename "x.zs" matches none of the recognized
category suffixes, yet `decompress` classifies it as Common and uses the
Common (general-dictionary) context, not the dictionary-free Default one. -/
theorem category_fallback_cex :
    endsWithS "x.zs" ".bcett.byml.zs" = false ∧
    endsWithS "x.zs" ".pack.zs" = false ∧
    endsWithS "x.zs" ".rsizetable.zs" = false ∧
    categoryFor "x.zs" = Category.common ∧
    dictOf stDemo (categoryFor "x.zs") ≠ dictOf stDemo Category.dflt := by
  refine ⟨by decide, by decide, by decide, rfl, by decide⟩

/-- C5 (amended): classification is a pure function of the three suffix
tests; a filename matching none of the recognized suffixes is classified
as Common (general-dictionary), not Default; and `decompress` uses exactly
the dictionary of the classified category. -/
theorem category_fallback :
    (∀ n1 n2 : String,
        endsWithS n1 ".bcett.byml.zs" = endsWithS n2 ".bcett.byml.zs" →
        endsWithS n1 ".pack.zs" = endsWithS n2 ".pack.zs" →
        endsWithS n1 ".rsizetable.zs" = endsWithS n2 ".rsizetable.zs" →
        categoryFor n1 = categoryFor n2)
    ∧ (∀ name : String, endsWithS name ".bcett.byml.zs" = false →
        endsWithS name ".pack.zs" = false →
        endsWithS name ".rsizetable.zs" = false →
        categoryFor name = Category.common)
    ∧ (∀ c st name data, decompress c st name data =
        decompressFrom
          (fun i => c.zstdTry (dictOf st (categoryFor name)) data (data.length * i))
          mulRange none) := by
  refine ⟨?_, ?_, ?_⟩
  · intro n1 n2 h1 h2 h3
    unfold categoryFor
    rw [h1, h2, h3]
  · intro name h1 h2 h3
    simp [categoryFor, h1, h2, h3]
  · intro c st name data
    rfl

/-- Witness for C5 (amended) at the concrete filename "x.zs". -/
theorem category_fallback_w : categoryFor "x.zs" = Category.common :=
  category_fallback.2.1 "x.zs" (by decide) (by decide) (by decide)

/-- C9: an archive member without a name is dropped by the
`filter(|f| f.name().is_some())` before per-member processing: inserting an
unnamed member anywhere in an archive leaves the processed member sequence,
all outputs, all warnings and the final result unchanged. -/
theorem unnamed_member_skip (c : Codecs) (st : Unpacker) (rel : List String) (r : Run)
    (files1 files2 : List SFile) (f : SFile) (hf : f.name = none) :
    processMembers c st rel ((files1 ++ f :: files2).filter (fun g => g.name.isSome)) r =
    processMembers c st rel ((files1 ++ files2).filter (fun g => g.name.isSome)) r := by
  have hfilter : (files1 ++ f :: files2).filter (fun g => g.name.isSome) =
      (files1 ++ files2).filter (fun g => g.name.isSome) := by
    simp [List.filter_append, List.filter_cons, hf]
  rw [hfilter]

/-- Witness for C9: a concrete unnamed member inserted before a named one
changes nothing. -/
theorem unnamed_member_skip_w :
    processMembers cDemo stDemo ["p.pack.zs"]
      (([] ++ (⟨none, [1, 2, 3]⟩ : SFile) :: [⟨some "raw.bin", rawBin⟩]).filter
        (fun g => g.name.isSome)) ⟨[], []⟩ =
    processMembers cDemo stDemo ["p.pack.zs"]
      (([] ++ [(⟨some "raw.bin", rawBin⟩ : SFile)]).filter (fun g => g.name.isSome)) ⟨[], []⟩ :=
  unnamed_member_skip cDemo stDemo ["p.pack.zs"] ⟨[], []⟩ [] [⟨some "raw.bin", rawBin⟩]
    ⟨none, [1, 2, 3]⟩ rfl

/-- C3 counterexample: in the end-to-end scenario (valid dictionaries bound,
`a.byml.zs` a compressed structured file, `b.pack.zs` a compressed archive
with members `inner.byml.zs` and `raw.bin`, every decode succeeding), none
of the output paths claimed by the spec — `a.yml`, `b.pack/inner.yml`,
`b.pack/raw.bin` — is produced: `with_extension` replaces only the final
extension and the member directory keeps the archive's full filename. -/
theorem end_to_end_outputs_cex :
    ¬ ["a.yml"] ∈ (unpack cDemo stDemo [eA, eB]).1.outs.map Prod.fst ∧
    ¬ ["b.pack", "inner.yml"] ∈ (unpack cDemo stDemo [eA, eB]).1.outs.map Prod.fst ∧
    ¬ ["b.pack", "raw.bin"] ∈ (unpack cDemo stDemo [eA, eB]).1.outs.map Prod.fst := by
  refine ⟨by decide, by decide, by decide⟩

/-- C3 (amended): in that scenario the run succeeds and the output tree
contains exactly `a.byml.yml` (decoded text), `b.pack.zs/inner.byml.yml`
(decoded text) and `b.pack.zs/raw.bin` (byte-identical to the member):
only the final extension is replaced by `yml`, and members land under a
directory carrying the parent archive's unmodified filename. -/
theorem end_to_end_outputs :
    unpack cDemo stDemo [eA, eB] =
      (⟨[(["a.byml.yml"], .text "demo"),
         (["b.pack.zs", "inner.byml.yml"], .text "demo"),
         (["b.pack.zs", "raw.bin"], .bin rawBin)], []⟩, .ok ()) := rfl

/-- C4 counterexample: a discovered `.bgyml` file whose bytes match neither
structured-format signature (an opaque entry in the spec's classification)
is routed to `write_byml`, which hits `_ => return Ok(())`: the entry
produces no output file at all instead of a verbatim copy. -/
theorem opaque_passthrough_cex :
    processEntry cDemo stDemo ⟨["x.bgyml"], .ok [0, 0, 0, 0]⟩ ⟨[], []⟩ =
      (⟨[], []⟩, .ok ()) := rfl

/-- C4 (amended): an opaque archive member (name matching no structured
suffix, signature neither AAMP nor MsgStdBn) is copied verbatim to the
mirrored path under the archive directory; but an entry routed to the
structured handler whose signature is unrecognized produces no output at
all (it is dropped silently, not passed through). -/
theorem opaque_passthrough :
    (∀ (c : Codecs) (st : Unpacker) (rel : List String) (r : Run) (f : SFile) name,
        f.name = some name →
        (endsWithS name ".byml.zs" || endsWithS name ".bgyml") = false →
        c.aampSig f.data = false →
        msgStdBn.isPrefixOf f.data = false →
        processMember c st rel f r = (addOut r (rel ++ [name]) (.bin f.data), .ok ()))
    ∧ (∀ (c : Codecs) (st : Unpacker) (data0 data : Bytes) (rel : List String) (r : Run) name,
        rel.getLast? = some name →
        (if endsWithS name ".zs" then decompress c st name data0 else Except.ok data0) =
          Except.ok data →
        fixHeader data = .ok none →
        write_byml c st data0 rel r = (r, .ok ())) := by
  constructor
  · intro c st rel r f name h1 h2 h3 h4
    simp [processMember, h1, h2, h3, h4]
  · intro c st data0 data rel r name h1 h2 h3
    simp [write_byml, h1, h2, h3]

/-- Witness for C4 (amended): the member `raw.bin` of the demo archive is
copied byte-for-byte, and the concrete opaque `.bgyml` entry yields no
output. -/
theorem opaque_passthrough_w :
    processMember cDemo stDemo ["b.pack.zs"] ⟨some "raw.bin", rawBin⟩ ⟨[], []⟩ =
      (addOut ⟨[], []⟩ (["b.pack.zs"] ++ ["raw.bin"]) (.bin rawBin), .ok ()) ∧
    write_byml cDemo stDemo [0, 0, 0, 0] ["x.bgyml"] ⟨[], []⟩ = (⟨[], []⟩, .ok ()) :=
  ⟨opaque_passthrough.1 cDemo stDemo ["b.pack.zs"] ⟨[], []⟩ ⟨some "raw.bin", rawBin⟩
      "raw.bin" rfl (by decide) rfl (by decide),
   opaque_passthrough.2 cDemo stDemo [0, 0, 0, 0] [0, 0, 0, 0] ["x.bgyml"] ⟨[], []⟩
      "x.bgyml" rfl rfl rfl⟩

/-- C6 counterexample: a `.bgyml` entry with bytes [66, 89, 0, 0] (magic "BY",
non-canonical version byte) fails to decode; what gets written is
[66, 89, 0, 4] — the buffer after the in-place `data[3] = 4` patch — not the
raw pre-decode bytes, which appear nowhere in the output. -/
theorem decode_failure_fallback_cex :
    (write_byml cDemo stDemo [66, 89, 0, 0] ["x.bgyml"] ⟨[], []⟩).1.outs =
      [(["x.bgyml"], OutData.bin [66, 89, 0, 4])] ∧
    ¬ OutData.bin [66, 89, 0, 0] ∈
      (write_byml cDemo stDemo [66, 89, 0, 0] ["x.bgyml"] ⟨[], []⟩).1.outs.map Prod.snd := by
  refine ⟨rfl, by decide⟩

/-- C6 (amended): when a structured entry fails to decode, the
post-decompression bytes AFTER the one-byte header patch are written
unchanged to the mirrored output path (with the `.zs` suffix stripped when
the entry was compressed) and a parse-failure warning is emitted; nothing
is dropped silently. -/
theorem decode_failure_fallback :
    ∀ (c : Codecs) (st : Unpacker) (data0 data data1 : Bytes) (rel : List String) (r : Run)
      name k,
    rel.getLast? = some name →
    (if endsWithS name ".zs" then decompress c st name data0 else Except.ok data0) =
      Except.ok data →
    fixHeader data = .ok (some data1) →
    c.bymlDec data1 = .error k →
    write_byml c st data0 rel r =
      (addOut (addWarn r (.parseFail rel k))
        (if endsWithS name ".zs" then pathWithExt rel "" else rel) (.bin data1), .ok ()) := by
  intro c st data0 data data1 rel r name k h1 h2 h3 h4
  simp [write_byml, h1, h2, h3, h4]

/-- Witness for C6 (amended) at the concrete failing entry. -/
theorem decode_failure_fallback_w :
    write_byml cDemo stDemo [66, 89, 0, 0] ["x.bgyml"] ⟨[], []⟩ =
      (addOut (addWarn ⟨[], []⟩ (.parseFail ["x.bgyml"] 7)) ["x.bgyml"]
        (.bin [66, 89, 0, 4]), .ok ()) :=
  decode_failure_fallback cDemo stDemo [66, 89, 0, 0] [66, 89, 0, 0] [66, 89, 0, 4]
    ["x.bgyml"] ⟨[], []⟩ "x.bgyml" 7 rfl rfl rfl rfl

/-- C1 counterexample: a filesystem read error on a discovered `.byml.zs`
file is not caught at the entry boundary: the run aborts with that error,
no warning is recorded, and the following discovered file — which on its
own produces outputs — is never processed. -/
theorem perEntry_error_policy_cex :
    unpack cDemo stDemo [eBad, eB] = (⟨[], []⟩, .err (.fsRead 3)) ∧
    (unpack cDemo stDemo [eB]).1.outs ≠ [] := by
  refine ⟨rfl, by decide⟩

/-- C1 (amended): per-entry failure handling is split. A propagated error
(filesystem read, decompression exhaustion, archive open, AAMP decode)
aborts the run at that entry, leaving all later discovered files
unprocessed, while an entry that completes normally lets the walk continue;
the decode-stage failures — BYML parse failure (raw bytes written, warning),
BYML YAML-serialization failure (entry skipped, warning), MSBT parse failure
(warning) and MSBT YAML-serialization failure (warning) — are caught inside
the entry boundary and let the run go on. -/
theorem perEntry_error_policy :
    (∀ (c : Codecs) (st : Unpacker) (e : Entry) es r r1,
        processEntry c st e r = (r1, .ok ()) →
        unpackFrom c st (e :: es) r = unpackFrom c st es r1)
    ∧ (∀ (c : Codecs) (st : Unpacker) (e : Entry) es r r1 x,
        processEntry c st e r = (r1, .err x) →
        unpackFrom c st (e :: es) r = (r1, .err x))
    ∧ (∀ (c : Codecs) (st : Unpacker) (data0 data data1 : Bytes) (rel : List String) (r : Run)
          name k,
        rel.getLast? = some name →
        (if endsWithS name ".zs" then decompress c st name data0 else Except.ok data0) =
          Except.ok data →
        fixHeader data = .ok (some data1) →
        c.bymlDec data1 = .error k →
        (write_byml c st data0 rel r).2 = .ok () ∧
        (write_byml c st data0 rel r).1.warns = r.warns ++ [.parseFail rel k])
    ∧ (∀ (c : Codecs) (st : Unpacker) (data0 data data1 : Bytes) (rel : List String) (r : Run)
          name byml e,
        rel.getLast? = some name →
        (if endsWithS name ".zs" then decompress c st name data0 else Except.ok data0) =
          Except.ok data →
        fixHeader data = .ok (some data1) →
        c.bymlDec data1 = .ok byml →
        c.yamlOfByml byml = .error e →
        write_byml c st data0 rel r = (addWarn r (.yamlFail rel), .ok ()))
    ∧ (∀ (c : Codecs) (st : Unpacker) (rel : List String) (f : SFile) (r : Run) name m,
        f.name = some name →
        (endsWithS name ".byml.zs" || endsWithS name ".bgyml") = false →
        c.aampSig f.data = false →
        msgStdBn.isPrefixOf f.data = true →
        c.msytDec f.data = .error m →
        processMember c st rel f r = (addWarn r (.msbtParse name), .ok ()))
    ∧ (∀ (c : Codecs) (st : Unpacker) (rel : List String) (f : SFile) (r : Run) name m e,
        f.name = some name →
        (endsWithS name ".byml.zs" || endsWithS name ".bgyml") = false →
        c.aampSig f.data = false →
        msgStdBn.isPrefixOf f.data = true →
        c.msytDec f.data = .ok m →
        c.yamlOfMsyt m = .error e →
        processMember c st rel f r = (addWarn r .msbtYaml, .ok ())) := by
  refine ⟨?_, ?_, ?_, ?_, ?_, ?_⟩
  · intro c st e es r r1 h
    simp [unpackFrom, h]
  · intro c st e es r r1 x h
    simp [unpackFrom, h]
  · intro c st data0 data data1 rel r name k h1 h2 h3 h4
    simp [write_byml, h1, h2, h3, h4, addOut, addWarn]
  · intro c st data0 data data1 rel r name byml e h1 h2 h3 h4 h5
    simp [write_byml, h1, h2, h3, h4, h5]
  · intro c st rel f r name m h1 h2 h3 h4 h5
    simp [processMember, h1, h2, h3, h4, h5]
  · intro c st rel f r name m e h1 h2 h3 h4 h5 h6
    simp [processMember, h1, h2, h3, h4, h5, h6]

/-- Witness for C1 (amended): the concrete read-failing entry aborts the
fold immediately with its error. -/
theorem perEntry_error_policy_w :
    unpackFrom cDemo stDemo (eBad :: [eB]) ⟨[], []⟩ = (⟨[], []⟩, .err (.fsRead 3)) :=
  perEntry_error_policy.2.1 cDemo stDemo eBad [eB] ⟨[], []⟩ ⟨[], []⟩ (Err.fsRead 3) rfl

/-- C10 counterexample: a "YB"-prefixed buffer of length 3 — which the claim
says must panic (shorter than 4 bytes with a matching signature prefix) —
is handled without a panic: index 2 is in bounds, the byte is patched, and
the entry completes with the decode-failure fallback. -/
theorem short_buffer_panics_cex :
    List.IsPrefix [89, 66] ([89, 66, 0] : Bytes) ∧ ([89, 66, 0] : Bytes).length < 4 ∧
    write_byml cDemo stDemo [89, 66, 0] ["x.bgyml"] ⟨[], []⟩ =
      (addOut (addWarn ⟨[], []⟩ (.parseFail ["x.bgyml"] 7)) ["x.bgyml"]
        (.bin [89, 66, 2]), .ok ()) := by
  refine ⟨⟨[0], rfl⟩, by decide, rfl⟩

/-- C10 (amended): the structured-entry handler performs no length checks,
so a buffer shorter than 2 bytes, a "BY"-prefixed buffer shorter than
4 bytes, or a "YB"-prefixed buffer shorter than 3 bytes makes it panic
(out-of-bounds) instead of returning an error or warning; a "YB"-prefixed
buffer of exactly 3 bytes, however, does not panic. -/
theorem short_buffer_panics : ∀ data : Bytes,
    (data.length < 2 → fixHeader data = Res.panicked)
    ∧ (List.IsPrefix [66, 89] data → data.length < 4 → fixHeader data = Res.panicked)
    ∧ (List.IsPrefix [89, 66] data → data.length < 3 → fixHeader data = Res.panicked)
    ∧ (∀ (c : Codecs) (st : Unpacker) (rel : List String) (r : Run) name,
        rel.getLast? = some name →
        endsWithS name ".zs" = false →
        fixHeader data = Res.panicked →
        write_byml c st data rel r = (r, Res.panicked)) := by
  intro data
  refine ⟨?_, ?_, ?_, ?_⟩
  · intro h
    cases data with
    | nil => rfl
    | cons a tail =>
      cases tail with
      | nil => rfl
      | cons b rest =>
        simp at h
        omega
  · intro hpre hlen
    obtain ⟨t, ht⟩ := hpre
    subst ht
    have hshape : ([66, 89] : Bytes) ++ t = 66 :: 89 :: t := rfl
    rw [hshape] at hlen ⊢
    have hno : ¬ 3 < (66 :: 89 :: t : Bytes).length := by
      simp only [List.length_cons] at hlen ⊢
      omega
    simp [fixHeader, hno]
    simp only [List.length_cons] at hlen
    omega
  · intro hpre hlen
    obtain ⟨t, ht⟩ := hpre
    subst ht
    have hshape : ([89, 66] : Bytes) ++ t = 89 :: 66 :: t := rfl
    rw [hshape] at hlen ⊢
    have hno : ¬ 2 < (89 :: 66 :: t : Bytes).length := by
      simp only [List.length_cons] at hlen ⊢
      omega
    simp [fixHeader, hno]
    have hzero : t.length = 0 := by
      simp only [List.length_cons] at hlen
      omega
    exact List.eq_nil_of_length_eq_zero hzero
  · intro c st rel r name h1 h2 h3
    simp [write_byml, h1, h2, h3]

/-- Witness for C10 (amended): the empty buffer panics, also through
`write_byml`. -/
theorem short_buffer_panics_w :
    fixHeader [] = Res.panicked ∧
    write_byml cDemo stDemo [] ["x.bgyml"] ⟨[], []⟩ = (⟨[], []⟩, Res.panicked) :=
  ⟨(short_buffer_panics []).1 (by decide),
   (short_buffer_panics []).2.2.2 cDemo stDemo ["x.bgyml"] ⟨[], []⟩ "x.bgyml"
     rfl (by decide) rfl⟩

theorem init_dicts_ok_shape (c : Codecs) (fs : FS) (st st' : Unpacker)
    (h : init_dicts c fs st = .ok st') :
    ∃ data dec files zs pk mp,
      fsRead fs zsDicPath = .ok data ∧
      c.zstdTry st.defaultD data (data.length * 15) = .ok dec ∧
      c.sarcOpen dec = .ok files ∧
      sarcGet files "zs.zsdic" = some zs ∧
      sarcGet files "pack.zsdic" = some pk ∧
      sarcGet files "bcett.byml.zsdic" = some mp ∧
      st' = { st with commonD := some zs, packD := some pk, mapD := some mp } := by
  cases h1 : fsRead fs zsDicPath with
  | error k => simp [init_dicts, h1] at h
  | ok data =>
    cases h2 : c.zstdTry st.defaultD data (data.length * 15) with
    | error k => simp [init_dicts, h1, h2] at h
    | ok dec =>
      cases h3 : c.sarcOpen dec with
      | error k => simp [init_dicts, h1, h2, h3] at h
      | ok files =>
        cases h4 : sarcGet files "zs.zsdic" with
        | none => simp [init_dicts, h1, h2, h3, h4] at h
        | some zs =>
          cases h5 : sarcGet files "pack.zsdic" with
          | none => simp [init_dicts, h1, h2, h3, h4, h5] at h
          | some pk =>
            cases h6 : sarcGet files "bcett.byml.zsdic" with
            | none => simp [init_dicts, h1, h2, h3, h4, h5, h6] at h
            | some mp =>
              simp [init_dicts, h1, h2, h3, h4, h5, h6] at h
              exact ⟨data, dec, files, zs, pk, mp, rfl, h2, h3, h4, h5, h6, h.symm⟩

/-- C8: initialization reads the fixed bootstrap archive `Pack/ZsDic.pack.zs`;
a missing archive is fatal before any file is processed (the whole run errors
with no outputs and no warnings), a missing named dictionary blob is likewise
fatal, and on success each of the Common, Pack and Map contexts is bound
exactly once, to exactly the correspondingly named blob of the archive, while
the Default context keeps no dictionary; the state is never modified again
(`unpack` only reads it). -/
theorem init_dicts_spec (c : Codecs) (fs : FS) (es : List Entry) :
    (∀ k, fsRead fs zsDicPath = .error k →
        init_dicts c fs ⟨none, none, none, none⟩ = .error (.fsRead k) ∧
        runAll c fs es = (⟨[], []⟩, .err (.fsRead k)))
    ∧ (∀ data dec files,
        fsRead fs zsDicPath = .ok data →
        c.zstdTry none data (data.length * 15) = .ok dec →
        c.sarcOpen dec = .ok files →
        (sarcGet files "zs.zsdic" = none ∨ sarcGet files "pack.zsdic" = none ∨
          sarcGet files "bcett.byml.zsdic" = none) →
        ∃ e, init_dicts c fs ⟨none, none, none, none⟩ = .error e ∧
          runAll c fs es = (⟨[], []⟩, .err e))
    ∧ (∀ st st', init_dicts c fs st = .ok st' →
        ∃ data dec files zs pk mp,
          fsRead fs zsDicPath = .ok data ∧
          c.zstdTry st.defaultD data (data.length * 15) = .ok dec ∧
          c.sarcOpen dec = .ok files ∧
          sarcGet files "zs.zsdic" = some zs ∧
          sarcGet files "pack.zsdic" = some pk ∧
          sarcGet files "bcett.byml.zsdic" = some mp ∧
          st' = { st with commonD := some zs, packD := some pk, mapD := some mp }) := by
  refine ⟨?_, ?_, ?_⟩
  · intro k h
    constructor
    · simp [init_dicts, h]
    · simp [runAll, init_dicts, h]
  · intro data dec files h1 h2 h3 h4
    cases hinit : init_dicts c fs ⟨none, none, none, none⟩ with
    | error e => exact ⟨e, rfl, by simp [runAll, hinit]⟩
    | ok st' =>
      exfalso
      obtain ⟨d, dc, fl, zs, pk, mp, g1, g2, g3, g4, g5, g6, g7⟩ :=
        init_dicts_ok_shape c fs _ _ hinit
      obtain rfl : data = d := Except.ok.inj (h1.symm.trans g1)
      obtain rfl : dec = dc := Except.ok.inj (h2.symm.trans g2)
      obtain rfl : files = fl := Except.ok.inj (h3.symm.trans g3)
      rcases h4 with h4 | h4 | h4
      · rw [h4] at g4
        exact Option.noConfusion g4
      · rw [h4] at g5
        exact Option.noConfusion g5
      · rw [h4] at g6
        exact Option.noConfusion g6
  · intro st st' h
    exact init_dicts_ok_shape c fs st st' h

/-- Witness for C8: with an empty source tree the bootstrap archive is
missing, initialization fails fatally, and the whole run aborts with no file
processed. -/
theorem init_dicts_spec_w :
    init_dicts cDemo [] ⟨none, none, none, none⟩ = .error (.fsRead 0) ∧
    runAll cDemo [] [] = (⟨[], []⟩, .err (.fsRead 0)) :=
  (init_dicts_spec cDemo [] []).1 0 rfl
